import Mathlib

/-!
Verification development for the two "systems-edge" utilities of the
ontoFrontend repository: the request scheduler (`RateLimiter` in the
source, a small in-page throttling queue) and the entity URL navigation
hook (`useEntityUrlNavigation`).

The TypeScript source runs on a single-threaded JavaScript event loop.
We embed it as a small-step event semantics:

* A synchronous extent of JS code (everything executed without hitting an
  `await` or a timer) is one atomic step of the model.
* `processQueue` sets `isProcessing`, shifts the queue head, increments
  `activeRequests`, and synchronously calls `executeRequest`, which
  synchronously invokes the item's operation before suspending at
  `await item.request()`.  Hence one dispatch per synchronous extent:
  after a dispatch the loop either suspends at
  `await this.delay(this.requestDelay)` (when items remain) or exits and
  clears `isProcessing` (when the queue emptied).
* The suspensions and `setTimeout` callbacks become scheduled tasks; an
  external event fires them in any order (the model does not measure
  real time, it records the delay each task was created with).
* The settling of an in-flight operation's promise, together with the
  `executeRequest` continuation it wakes (resolve/reject the caller's
  promise, decrement `activeRequests`, schedule `processQueue` after
  `requestDelay / 2`), is one `complete` event.

Operations are opaque asynchronous tasks identified by a token assigned
in submission order; their results are abstracted as naturals.  The
caller-facing promise outcomes are recorded in the `settled` list.
-/

namespace RateLimiter

/-- Result of an operation's own promise: fulfilled with a value or
rejected with an error (values and errors abstracted as naturals). -/
inductive OpResult where
  | ok (v : Nat)
  | err (e : Nat)
deriving DecidableEq, Repr

/-- How a caller's promise (returned by `addRequest`) finally settles. -/
inductive Outcome where
  | resolved (v : Nat)
  | rejected (e : Nat)
  | cancelled
deriving DecidableEq, Repr

/-- `executeRequest` forwards the operation's own result verbatim:
`item.resolve(result)` on fulfilment, `item.reject(error)` on rejection. -/
def OpResult.toOutcome : OpResult → Outcome
  | .ok v => .resolved v
  | .err e => .rejected e

/-- An entry of the pending queue (`RequestQueue` in the source): the
caller-supplied advisory id plus the model's unique submission token.
The stored resolve/reject callbacks are represented by recording the
token's outcome in `settled` when they are invoked. -/
structure Item where
  token : Nat
  id : String
deriving DecidableEq, Repr

/-- A continuation waiting on the JS event loop.
`loopResume ms` is the dispatch loop suspended at
`await this.delay(this.requestDelay)` with the delay value `ms` read at
suspension time.  `timeoutHalf ms` is the
`setTimeout(() => this.processQueue(), this.requestDelay / 2)` callback
registered in `executeRequest`'s finally block; `ms` records the
`requestDelay` in force when it was registered, the actual wait being
half of it. -/
inductive ScheduledTask where
  | loopResume (ms : Nat)
  | timeoutHalf (ms : Nat)
deriving DecidableEq, Repr

def isLoopResume : ScheduledTask → Bool
  | .loopResume _ => true
  | _ => false

def isTimeoutHalf : ScheduledTask → Bool
  | .timeoutHalf _ => true
  | _ => false

/-- The scheduler's instance fields, plus ghost bookkeeping: `nextToken`
(submission counter), `inflight` (tokens dispatched but not settled),
`settled` (each caller promise's final outcome), `tasks` (pending event
loop continuations). -/
structure LimiterState where
  queue : List Item
  isProcessing : Bool
  requestDelay : Nat
  maxConcurrent : Nat
  activeRequests : Nat
  nextToken : Nat
  inflight : List Nat
  settled : List (Nat × Outcome)
  tasks : List ScheduledTask
deriving DecidableEq, Repr

/-- Field initializers of `class RateLimiter`. -/
def LimiterState.init : LimiterState :=
  { queue := []
    isProcessing := false
    requestDelay := 200
    maxConcurrent := 3
    activeRequests := 0
    nextToken := 0
    inflight := []
    settled := []
    tasks := [] }

/-- Tokens of the pending queue, front first. -/
def tokensOf (q : List Item) : List Nat := q.map Item.token

/-- Synchronous extent of `processQueue` from its invocation: the guard
`isProcessing || queue empty || activeRequests >= maxConcurrent` returns
early; otherwise the first loop iteration shifts the head, increments
`activeRequests`, launches the operation (the returned token list),
and then either suspends at the inter-dispatch delay (more items remain:
a `loopResume` task is registered and `isProcessing` stays set) or exits
the loop and clears `isProcessing` (queue emptied). -/
def processQueue (s : LimiterState) : LimiterState × List Nat :=
  if s.isProcessing = true ∨ s.queue = [] ∨ s.maxConcurrent ≤ s.activeRequests then
    (s, [])
  else
    match s.queue with
    | [] => (s, [])
    | item :: rest =>
      if rest = [] then
        ({ s with queue := rest
                  activeRequests := s.activeRequests + 1
                  inflight := item.token :: s.inflight
                  isProcessing := false }, [item.token])
      else
        ({ s with queue := rest
                  activeRequests := s.activeRequests + 1
                  inflight := item.token :: s.inflight
                  isProcessing := true
                  tasks := s.tasks ++ [ScheduledTask.loopResume s.requestDelay] },
         [item.token])

/-- Synchronous extent of the dispatch loop resuming after its
inter-dispatch delay: the `while` condition is re-read against current
state; on success the next head is dispatched, then the loop again either
suspends (items remain) or exits clearing `isProcessing`. -/
def resumeLoop (s : LimiterState) : LimiterState × List Nat :=
  match s.queue with
  | [] => ({ s with isProcessing := false }, [])
  | item :: rest =>
    if s.maxConcurrent ≤ s.activeRequests then
      ({ s with isProcessing := false }, [])
    else if rest = [] then
      ({ s with queue := rest
                activeRequests := s.activeRequests + 1
                inflight := item.token :: s.inflight
                isProcessing := false }, [item.token])
    else
      ({ s with queue := rest
                activeRequests := s.activeRequests + 1
                inflight := item.token :: s.inflight
                tasks := s.tasks ++ [ScheduledTask.loopResume s.requestDelay] },
       [item.token])

/-- External events driving the model.  `submit` is `addRequest`;
`complete` is the settling of an in-flight operation together with the
`executeRequest` continuation it wakes; `fireLoop` / `fireTimeout` fire a
pending `loopResume` / `timeoutHalf` task; `clear` is `clearQueue`;
`settings` is `updateSettings` with its two optional fields. -/
inductive Event where
  | submit (rid : String)
  | complete (tok : Nat) (r : OpResult)
  | fireLoop
  | fireTimeout
  | clear
  | settings (d m : Option Nat)
deriving DecidableEq, Repr

/-- One event step.  Returns the new state and the tokens dispatched
(operations invoked) during the event's synchronous extent. -/
def step (s : LimiterState) (e : Event) : LimiterState × List Nat :=
  match e with
  | .submit rid =>
      processQueue
        { s with queue := s.queue ++ [⟨s.nextToken, rid⟩]
                 nextToken := s.nextToken + 1 }
  | .complete tok r =>
      if tok ∈ s.inflight then
        ({ s with inflight := s.inflight.erase tok
                  settled := s.settled ++ [(tok, r.toOutcome)]
                  activeRequests := s.activeRequests - 1
                  tasks := s.tasks ++ [ScheduledTask.timeoutHalf s.requestDelay] }, [])
      else (s, [])
  | .fireLoop =>
      match s.tasks.find? isLoopResume with
      | some t => resumeLoop { s with tasks := s.tasks.erase t }
      | none => (s, [])
  | .fireTimeout =>
      match s.tasks.find? isTimeoutHalf with
      | some t => processQueue { s with tasks := s.tasks.erase t }
      | none => (s, [])
  | .clear =>
      ({ s with queue := []
                settled := s.settled ++
                  s.queue.map (fun it => (it.token, Outcome.cancelled)) }, [])
  | .settings d m =>
      ({ s with requestDelay := d.getD s.requestDelay
                maxConcurrent := m.getD s.maxConcurrent }, [])

/-- Run a sequence of events, accumulating dispatched tokens in order. -/
def run (s : LimiterState) : List Event → LimiterState × List Nat
  | [] => (s, [])
  | e :: es => ((run (step s e).1 es).1, (step s e).2 ++ (run (step s e).1 es).2)

/-- Snapshot returned by `getStatus`. -/
structure Status where
  queueLength : Nat
  activeRequests : Nat
  isProcessing : Bool
deriving DecidableEq, Repr

/-- `getStatus`: a pure read of the three fields. -/
def getStatus (s : LimiterState) : Status :=
  { queueLength := s.queue.length
    activeRequests := s.activeRequests
    isProcessing := s.isProcessing }

/-- A settings event is capacity-safe when it does not set `maxConcurrent`
below the number of operations currently in flight. -/
def settingsSafeB (s : LimiterState) : Event → Bool
  | .settings _ (some m) => decide (s.activeRequests ≤ m)
  | _ => true

/-- Every settings event along the run is capacity-safe at the state on
which it fires. -/
def goodRunB (s : LimiterState) : List Event → Bool
  | [] => true
  | e :: es => settingsSafeB s e && goodRunB (step s e).1 es

theorem processQueue_active_le (s : LimiterState)
    (h : s.activeRequests ≤ s.maxConcurrent) :
    (processQueue s).1.activeRequests ≤ (processQueue s).1.maxConcurrent := by
  unfold processQueue
  split
  · exact h
  · rename_i hg
    push_neg at hg
    split
    · exact h
    · split <;> simp <;> omega

theorem resumeLoop_active_le (s : LimiterState)
    (h : s.activeRequests ≤ s.maxConcurrent) :
    (resumeLoop s).1.activeRequests ≤ (resumeLoop s).1.maxConcurrent := by
  unfold resumeLoop
  split
  · exact h
  · split
    · exact h
    · split <;> simp <;> omega

theorem step_active_le (s : LimiterState) (e : Event)
    (h : s.activeRequests ≤ s.maxConcurrent) (hs : settingsSafeB s e = true) :
    (step s e).1.activeRequests ≤ (step s e).1.maxConcurrent := by
  cases e with
  | submit rid => exact processQueue_active_le _ h
  | complete tok r =>
      simp only [step]
      split
      · simp
        omega
      · exact h
  | fireLoop =>
      simp only [step]
      cases hf : s.tasks.find? isLoopResume with
      | none => exact h
      | some t => exact resumeLoop_active_le _ h
  | fireTimeout =>
      simp only [step]
      cases hf : s.tasks.find? isTimeoutHalf with
      | none => exact h
      | some t => exact processQueue_active_le _ h
  | clear => exact h
  | settings d m =>
      cases m with
      | none => exact h
      | some mv =>
          simp only [settingsSafeB, decide_eq_true_eq] at hs
          exact hs

theorem run_active_le (evs : List Event) : ∀ s : LimiterState,
    s.activeRequests ≤ s.maxConcurrent → goodRunB s evs = true →
    (run s evs).1.activeRequests ≤ (run s evs).1.maxConcurrent := by
  induction evs with
  | nil => intro s h _; exact h
  | cons e es ih =>
      intro s h hg
      simp only [goodRunB, Bool.and_eq_true] at hg
      exact ih _ (step_active_le s e h hg.1) hg.2

/-- C1 counterexample: the claimed invariant quantifies over event
sequences that include `updateSettings`; lowering `maxConcurrent` to 0
while one operation is in flight leaves `activeRequests = 1` above the
ceiling `maxConcurrent = 0`, so the claim as stated is false. -/
theorem c1_counterexample :
    (run LimiterState.init [Event.submit "a", Event.settings none (some 0)]).1.maxConcurrent
      < (run LimiterState.init
          [Event.submit "a", Event.settings none (some 0)]).1.activeRequests := by
  decide

/-- C1 (amended): along every event sequence of submits, completions,
timer firings, queue clears and settings updates in which no
`updateSettings` sets `maxConcurrent` below the current in-flight count,
the number of concurrently executing operations `activeRequests` never
exceeds the configured ceiling `maxConcurrent`. -/
theorem c1_active_le_max (evs : List Event)
    (h : goodRunB LimiterState.init evs = true) :
    (run LimiterState.init evs).1.activeRequests
      ≤ (run LimiterState.init evs).1.maxConcurrent :=
  run_active_le evs LimiterState.init (by decide) h

theorem c1_active_le_max_witness :
    goodRunB LimiterState.init
        [Event.submit "a", Event.submit "b", Event.submit "c", Event.submit "d"] = true
    ∧ (run LimiterState.init
        [Event.submit "a", Event.submit "b", Event.submit "c", Event.submit "d"]).1.activeRequests
      ≤ (run LimiterState.init
        [Event.submit "a", Event.submit "b", Event.submit "c", Event.submit "d"]).1.maxConcurrent :=
  ⟨by decide, c1_active_le_max _ (by decide)⟩

theorem processQueue_card (s : LimiterState)
    (h : s.activeRequests = s.inflight.length) :
    (processQueue s).1.activeRequests = (processQueue s).1.inflight.length := by
  unfold processQueue
  split
  · exact h
  · split
    · exact h
    · split <;> simp <;> omega

theorem resumeLoop_card (s : LimiterState)
    (h : s.activeRequests = s.inflight.length) :
    (resumeLoop s).1.activeRequests = (resumeLoop s).1.inflight.length := by
  unfold resumeLoop
  split
  · exact h
  · split
    · exact h
    · split <;> simp <;> omega

theorem step_card (s : LimiterState) (e : Event)
    (h : s.activeRequests = s.inflight.length) :
    (step s e).1.activeRequests = (step s e).1.inflight.length := by
  cases e with
  | submit rid => exact processQueue_card _ h
  | complete tok r =>
      simp only [step]
      split
      · rename_i hm
        simp [List.length_erase_of_mem hm]
        have : 1 ≤ s.inflight.length := List.length_pos.mpr (List.ne_nil_of_mem hm)
        omega
      · exact h
  | fireLoop =>
      simp only [step]
      cases hf : s.tasks.find? isLoopResume with
      | none => exact h
      | some t => exact resumeLoop_card _ h
  | fireTimeout =>
      simp only [step]
      cases hf : s.tasks.find? isTimeoutHalf with
      | none => exact h
      | some t => exact processQueue_card _ h
  | clear => exact h
  | settings d m => exact h

theorem run_card (evs : List Event) : ∀ s : LimiterState,
    s.activeRequests = s.inflight.length →
    (run s evs).1.activeRequests = (run s evs).1.inflight.length := by
  induction evs with
  | nil => intro s h; exact h
  | cons e es ih => intro s h; exact ih _ (step_card s e h)

/-- C9: at every point between synchronous updates (i.e. in every state
reachable from the initial limiter by event steps), `getStatus` is a pure
read of the state whose `activeRequests` field equals the number of
operations dispatched but not yet settled (the in-flight token list) and
whose `queueLength` field equals the number of pending submitted-but-not-
dispatched requests. -/
theorem c9_status_snapshot (evs : List Event) :
    getStatus (run LimiterState.init evs).1 =
      { queueLength := (run LimiterState.init evs).1.queue.length
        activeRequests := (run LimiterState.init evs).1.inflight.length
        isProcessing := (run LimiterState.init evs).1.isProcessing } := by
  have h := run_card evs LimiterState.init rfl
  simp [getStatus, h]

theorem processQueue_tokens (s : LimiterState) :
    (processQueue s).2 ++ tokensOf (processQueue s).1.queue = tokensOf s.queue := by
  unfold processQueue
  split
  · simp
  · split
    · simp
    · rename_i hq
      split <;> simp [tokensOf, hq]

theorem processQueue_next (s : LimiterState) :
    (processQueue s).1.nextToken = s.nextToken := by
  unfold processQueue
  split
  · rfl
  · split
    · rfl
    · split <;> rfl

theorem resumeLoop_tokens (s : LimiterState) :
    (resumeLoop s).2 ++ tokensOf (resumeLoop s).1.queue = tokensOf s.queue := by
  unfold resumeLoop
  split
  · simp_all [tokensOf]
  · rename_i hq
    split
    · simp [tokensOf, hq]
    · split <;> simp [tokensOf, hq]

theorem resumeLoop_next (s : LimiterState) :
    (resumeLoop s).1.nextToken = s.nextToken := by
  unfold resumeLoop
  split
  · rfl
  · split
    · rfl
    · split <;> rfl

/-- Dispatch-order invariant: the tokens dispatched so far followed by the
tokens still pending form a strictly increasing sequence (tokens are
assigned in submission order), all below the submission counter. -/
def GInv (s : LimiterState) (ds : List Nat) : Prop :=
  List.Pairwise (· < ·) (ds ++ tokensOf s.queue)
  ∧ ∀ t ∈ ds ++ tokensOf s.queue, t < s.nextToken

theorem ginv_frame (s s' : LimiterState) (ds : List Nat)
    (hq : s'.queue = s.queue) (hn : s'.nextToken = s.nextToken)
    (h : GInv s ds) : GInv s' (ds ++ []) := by
  obtain ⟨h1, h2⟩ := h
  constructor
  · simpa [hq] using h1
  · intro t ht
    rw [hn]
    apply h2
    simp only [List.append_nil] at ht
    rwa [hq] at ht

theorem processQueue_ginv (s : LimiterState) (ds : List Nat) (h : GInv s ds) :
    GInv (processQueue s).1 (ds ++ (processQueue s).2) := by
  obtain ⟨h1, h2⟩ := h
  constructor
  · rw [List.append_assoc, processQueue_tokens]
    exact h1
  · intro t ht
    rw [List.append_assoc, processQueue_tokens] at ht
    rw [processQueue_next]
    exact h2 t ht

theorem resumeLoop_ginv (s : LimiterState) (ds : List Nat) (h : GInv s ds) :
    GInv (resumeLoop s).1 (ds ++ (resumeLoop s).2) := by
  obtain ⟨h1, h2⟩ := h
  constructor
  · rw [List.append_assoc, resumeLoop_tokens]
    exact h1
  · intro t ht
    rw [List.append_assoc, resumeLoop_tokens] at ht
    rw [resumeLoop_next]
    exact h2 t ht

theorem step_ginv (s : LimiterState) (ds : List Nat) (e : Event) (h : GInv s ds) :
    GInv (step s e).1 (ds ++ (step s e).2) := by
  obtain ⟨h1, h2⟩ := h
  cases e with
  | submit rid =>
      apply processQueue_ginv
      constructor
      · simp only [tokensOf, List.map_append, List.map_cons, List.map_nil]
        rw [← List.append_assoc]
        refine List.pairwise_append.mpr ⟨h1, by simp, ?_⟩
        intro a ha b hb
        simp at hb
        subst hb
        exact h2 a ha
      · intro t ht
        simp only [tokensOf, List.map_append, List.map_cons, List.map_nil] at ht
        rw [← List.append_assoc] at ht
        rcases List.mem_append.mp ht with hl | hr
        · exact Nat.lt_succ_of_lt (h2 t hl)
        · simp at hr
          subst hr
          exact Nat.lt_succ_self _
  | complete tok r =>
      simp only [step]
      split
      · exact ginv_frame s _ ds rfl rfl ⟨h1, h2⟩
      · exact ginv_frame s _ ds rfl rfl ⟨h1, h2⟩
  | fireLoop =>
      simp only [step]
      cases hf : s.tasks.find? isLoopResume with
      | none => exact ginv_frame s s ds rfl rfl ⟨h1, h2⟩
      | some t => exact resumeLoop_ginv _ ds ⟨h1, h2⟩
  | fireTimeout =>
      simp only [step]
      cases hf : s.tasks.find? isTimeoutHalf with
      | none => exact ginv_frame s s ds rfl rfl ⟨h1, h2⟩
      | some t => exact processQueue_ginv _ ds ⟨h1, h2⟩
  | clear =>
      simp only [step]
      constructor
      · have := (List.pairwise_append.mp h1).1
        simpa [tokensOf] using this
      · intro t ht
        simp [tokensOf] at ht
        exact h2 t (List.mem_append.mpr (Or.inl ht))
  | settings d m =>
      exact ginv_frame s _ ds rfl rfl ⟨h1, h2⟩

theorem run_ginv (evs : List Event) : ∀ (s : LimiterState) (ds : List Nat),
    GInv s ds → GInv (run s evs).1 (ds ++ (run s evs).2) := by
  induction evs with
  | nil =>
      intro s ds h
      show GInv s (ds ++ [])
      simpa using h
  | cons e es ih =>
      intro s ds h
      have h2 := ih (step s e).1 (ds ++ (step s e).2) (step_ginv s ds e h)
      show GInv (run (step s e).1 es).1
        (ds ++ ((step s e).2 ++ (run (step s e).1 es).2))
      rw [← List.append_assoc]
      exact h2

/-- C2: dispatch is strict FIFO over the pending sequence.  Tokens are
assigned in submission order (`addRequest` pushes the next counter value
at the back and `processQueue` shifts from the front), and along every
event sequence the tokens of the dispatched operations, in dispatch order,
form a strictly increasing list: if A was submitted before B and both get
dispatched, A's operation is launched before B's. -/
theorem c2_fifo_dispatch (evs : List Event) :
    List.Pairwise (· < ·) ((run LimiterState.init evs).2) := by
  have h := run_ginv evs LimiterState.init []
    (by constructor <;> simp [LimiterState.init, tokensOf, GInv])
  have h1 := h.1
  simp only [List.nil_append] at h1
  exact (List.pairwise_append.mp h1).1

/-- Sample state with one operation in flight (token 0), used by
concrete witnesses. -/
def sampleInflight : LimiterState :=
  { LimiterState.init with inflight := [0], activeRequests := 1, nextToken := 1 }

/-- Sample state with two pending items and one in-flight operation,
used by concrete witnesses. -/
def sampleQueued : LimiterState :=
  { LimiterState.init with
      queue := [⟨1, "b"⟩, ⟨2, "c"⟩]
      inflight := [0]
      activeRequests := 1
      nextToken := 3 }

/-- C3: `clearQueue` rejects every still-pending request with the
cancellation error, empties the pending sequence (`queueLength` becomes
0), and leaves the in-flight operations, their count, the loop flag and
the scheduled continuations untouched; an operation that was in flight
still settles with its own outcome afterwards. -/
theorem c3_clear_queue (s : LimiterState) :
    (step s Event.clear).1.queue = []
    ∧ (getStatus (step s Event.clear).1).queueLength = 0
    ∧ (∀ it ∈ s.queue, (it.token, Outcome.cancelled) ∈ (step s Event.clear).1.settled)
    ∧ (step s Event.clear).1.inflight = s.inflight
    ∧ (step s Event.clear).1.activeRequests = s.activeRequests
    ∧ (step s Event.clear).1.isProcessing = s.isProcessing
    ∧ (step s Event.clear).1.tasks = s.tasks
    ∧ (∀ p ∈ s.settled, p ∈ (step s Event.clear).1.settled)
    ∧ (∀ tok r, tok ∈ s.inflight →
        (tok, OpResult.toOutcome r)
          ∈ (step (step s Event.clear).1 (Event.complete tok r)).1.settled) := by
  refine ⟨rfl, rfl, ?_, rfl, rfl, rfl, rfl, ?_, ?_⟩
  · intro it hit
    simp only [step]
    simp
    exact Or.inr ⟨it, hit, rfl⟩
  · intro p hp
    simp only [step]
    simp
    exact Or.inl hp
  · intro tok r htok
    simp only [step]
    simp [htok]

theorem c3_clear_queue_witness :
    (step sampleQueued Event.clear).1.queue = []
    ∧ (1, Outcome.cancelled) ∈ (step sampleQueued Event.clear).1.settled
    ∧ (0, Outcome.resolved 9)
        ∈ (step (step sampleQueued Event.clear).1
            (Event.complete 0 (OpResult.ok 9))).1.settled :=
  ⟨(c3_clear_queue sampleQueued).1,
   (c3_clear_queue sampleQueued).2.2.1 ⟨1, "b"⟩ (by simp [sampleQueued]),
   (c3_clear_queue sampleQueued).2.2.2.2.2.2.2.2 0 (OpResult.ok 9)
     (by simp [sampleQueued])⟩

/-- C4: when an in-flight operation settles, the caller's promise records
exactly the operation's own outcome (`item.resolve(result)` /
`item.reject(error)`); the pending queue, every sibling's recorded
outcome, the loop flag, and the settings are untouched, and regardless of
success or failure the continuation only decrements the in-flight count
and schedules another `processQueue` pass — a rejection never aborts the
loop or cancels siblings. -/
theorem c4_result_forwarding (s : LimiterState) (tok : Nat) (r : OpResult)
    (h : tok ∈ s.inflight) :
    (step s (Event.complete tok r)).1.settled = s.settled ++ [(tok, r.toOutcome)]
    ∧ (step s (Event.complete tok r)).1.queue = s.queue
    ∧ (step s (Event.complete tok r)).1.inflight = s.inflight.erase tok
    ∧ (step s (Event.complete tok r)).1.activeRequests = s.activeRequests - 1
    ∧ (step s (Event.complete tok r)).1.isProcessing = s.isProcessing
    ∧ (step s (Event.complete tok r)).1.requestDelay = s.requestDelay
    ∧ (step s (Event.complete tok r)).1.maxConcurrent = s.maxConcurrent
    ∧ (step s (Event.complete tok r)).1.tasks
        = s.tasks ++ [ScheduledTask.timeoutHalf s.requestDelay] := by
  simp [step, if_pos h]

theorem c4_result_forwarding_witness :
    (step sampleInflight (Event.complete 0 (OpResult.err 7))).1.settled
        = sampleInflight.settled ++ [(0, Outcome.rejected 7)]
    ∧ (step sampleInflight (Event.complete 0 (OpResult.err 7))).1.tasks
        = sampleInflight.tasks ++ [ScheduledTask.timeoutHalf sampleInflight.requestDelay] :=
  ⟨(c4_result_forwarding sampleInflight 0 (OpResult.err 7) (by simp [sampleInflight])).1,
   (c4_result_forwarding sampleInflight 0 (OpResult.err 7)
      (by simp [sampleInflight])).2.2.2.2.2.2.2⟩

/-- C5 counterexample: on the freshly constructed limiter, `addRequest`
synchronously runs the promise executor, which calls `processQueue`;
the guard passes (loop inactive, capacity free), so the newly submitted
operation (token 0) is invoked during the synchronous execution of
`submit` itself — the dispatched-token list of the submit event is not
empty, contradicting the claim that invocation is always deferred. -/
theorem c5_counterexample :
    (step LimiterState.init (Event.submit "a")).2 ≠ [] := by
  decide

/-- C5 (amended): `submit` dispatches synchronously exactly when the
dispatch loop is not already running and the in-flight count is below the
ceiling; in that case the operation launched within `submit` is the head
of the pending queue (the newly submitted operation itself when the queue
was empty).  Only when the loop is active or capacity is saturated is
invocation deferred to a later dispatch-loop turn. -/
theorem c5_sync_dispatch (s : LimiterState) (rid : String) :
    (step s (Event.submit rid)).2 =
      if s.isProcessing = true ∨ s.maxConcurrent ≤ s.activeRequests then []
      else
        match s.queue with
        | [] => [s.nextToken]
        | item :: _ => [item.token] := by
  simp only [step]
  unfold processQueue
  cases hq : s.queue with
  | nil =>
      simp [hq]
      split
      · simp_all
      · simp_all
  | cons item rest =>
      simp [hq]
      split
      · simp_all
      · simp_all

/-- C8: delay discipline of the dispatch loop.  After a dispatch the loop
registers its inter-dispatch suspension, carrying the configured
`requestDelay`, exactly when more pending items remain (no delay after
dispatching the last available item, in the initial `processQueue` pass
and in every resumption alike); and every completion of an in-flight
operation re-enters the loop through a timeout registered with the
current `requestDelay`, of which half is waited. -/
theorem c8_delay_discipline (s t : LimiterState) (tok : Nat) (r : OpResult)
    (h : tok ∈ s.inflight) :
    ((step s (Event.complete tok r)).1.tasks
        = s.tasks ++ [ScheduledTask.timeoutHalf s.requestDelay])
    ∧ ((processQueue t).2 ≠ [] → (processQueue t).1.queue = [] →
        (processQueue t).1.tasks = t.tasks)
    ∧ ((processQueue t).2 ≠ [] → (processQueue t).1.queue ≠ [] →
        (processQueue t).1.tasks = t.tasks ++ [ScheduledTask.loopResume t.requestDelay])
    ∧ ((resumeLoop t).2 ≠ [] → (resumeLoop t).1.queue = [] →
        (resumeLoop t).1.tasks = t.tasks)
    ∧ ((resumeLoop t).2 ≠ [] → (resumeLoop t).1.queue ≠ [] →
        (resumeLoop t).1.tasks = t.tasks ++ [ScheduledTask.loopResume t.requestDelay]) := by
  refine ⟨by simp [step, if_pos h], ?_, ?_, ?_, ?_⟩
  · unfold processQueue
    split
    · simp
    · split
      · simp
      · split <;> simp_all
  · unfold processQueue
    split
    · simp
    · split
      · simp
      · split <;> simp_all
  · unfold resumeLoop
    split
    · simp
    · split
      · simp
      · split <;> simp_all
  · unfold resumeLoop
    split
    · simp
    · split
      · simp
      · split <;> simp_all

theorem c8_delay_discipline_witness :
    ((step sampleInflight (Event.complete 0 (OpResult.ok 1))).1.tasks
        = sampleInflight.tasks ++ [ScheduledTask.timeoutHalf sampleInflight.requestDelay])
    ∧ ((processQueue sampleQueued).2 ≠ [] → (processQueue sampleQueued).1.queue ≠ [] →
        (processQueue sampleQueued).1.tasks
          = sampleQueued.tasks ++ [ScheduledTask.loopResume sampleQueued.requestDelay]) :=
  ⟨(c8_delay_discipline sampleInflight sampleQueued 0 (OpResult.ok 1)
      (by simp [sampleInflight])).1,
   (c8_delay_discipline sampleInflight sampleQueued 0 (OpResult.ok 1)
      (by simp [sampleInflight])).2.2.1⟩

/-- C10: the freshly constructed limiter starts with an inter-dispatch
delay of 200 milliseconds, a concurrency ceiling of 3, an empty pending
queue, zero in-flight requests and the dispatch loop inactive; and
`updateSettings` with a partial settings object overwrites exactly the
provided fields, leaving the other setting and the whole scheduling
state (queue, in-flight count, loop flag, continuations, promises)
unchanged. -/
theorem c10_defaults_update_frame :
    (LimiterState.init.requestDelay = 200
      ∧ LimiterState.init.maxConcurrent = 3
      ∧ LimiterState.init.queue = []
      ∧ LimiterState.init.activeRequests = 0
      ∧ LimiterState.init.isProcessing = false)
    ∧ ∀ (s : LimiterState) (d m : Option Nat),
        (step s (Event.settings d m)).1 =
          { s with requestDelay := d.getD s.requestDelay
                   maxConcurrent := m.getD s.maxConcurrent } :=
  ⟨⟨rfl, rfl, rfl, rfl, rfl⟩, fun _ _ _ => rfl⟩

end RateLimiter

/-!
Embedding of the `useEntityUrlNavigation` hook.  One evaluation of the
hook's effect for a given query string is modelled as a pure function
from the navigation configuration and the query string to the ordered
list of callback invocations it performs.  `URLSearchParams.get` is
modelled for the plain `key=value&key=value` queries at issue (no
percent-decoding, which the relevant parameters never need), and
JavaScript's `parseInt(s)` (decimal, as called here) as an optional
integer, `none` standing for `NaN`.
-/

namespace EntityNav

/-- Leading `?` of `location.search`, which `URLSearchParams` ignores. -/
def stripQuestion : List Char → List Char
  | '?' :: rest => rest
  | cs => cs

/-- Split a character list on a separator; like `String.splitOn` for a
one-character separator (adjacent separators yield empty pieces). -/
def splitOnChar (sep : Char) : List Char → List (List Char)
  | [] => [[]]
  | c :: rest =>
      if c = sep then [] :: splitOnChar sep rest
      else
        match splitOnChar sep rest with
        | [] => [[c]]
        | h :: t => (c :: h) :: t

/-- Split one `key=value` piece at the first `=` (a piece without `=`
maps to the empty value, everything after the first `=` is the value, as
in `URLSearchParams`). -/
def pairOf (piece : List Char) : List Char × String :=
  match piece.dropWhile (fun c => c != '=') with
  | [] => (piece.takeWhile (fun c => c != '='), "")
  | _ :: v => (piece.takeWhile (fun c => c != '='), String.mk v)

/-- First value bound to key `k` in an association list. -/
def lookupKey (k : List Char) : List (List Char × String) → Option String
  | [] => none
  | (k', v) :: rest => if k = k' then some v else lookupKey k rest

/-- `searchParams.get(k)`: the first value bound to `k`, or `none`
(JavaScript `null`) when the parameter is absent. -/
def getParam (q k : String) : Option String :=
  lookupKey k.toList ((splitOnChar '&' (stripQuestion q.toList)).map pairOf)

/-- Whitespace skipped by `parseInt`. -/
def isSpaceChar (c : Char) : Bool :=
  c == ' ' || c == '\t' || c == '\n' || c == '\r'

/-- Value of a list of decimal digit characters. -/
def digitsVal (ds : List Char) : Nat :=
  ds.foldl (fun acc c => acc * 10 + (c.toNat - '0'.toNat)) 0

/-- JavaScript `parseInt(s)` as used here (radix 10): skip leading
whitespace, read an optional sign and then the maximal run of leading
decimal digits; `none` models the `NaN` returned when no digit is
found. -/
def jsParseInt (s : String) : Option Int :=
  let cs := s.toList.dropWhile isSpaceChar
  match cs with
  | '-' :: rest =>
      let digs := rest.takeWhile Char.isDigit
      if digs = [] then none else some (-(digitsVal digs : Int))
  | '+' :: rest =>
      let digs := rest.takeWhile Char.isDigit
      if digs = [] then none else some ((digitsVal digs : Int))
  | _ =>
      let digs := cs.takeWhile Char.isDigit
      if digs = [] then none else some ((digitsVal digs : Int))

/-- Result of the injected `getEntityById` promise: it resolves with a
success flag and an optional payload, or rejects (`thrown`).  The
argument `none` models `NaN` being passed for the id. -/
inductive FetchResult (T : Type) where
  | resolved (success : Bool) (data : Option T)
  | thrown
deriving DecidableEq, Repr

/-- The hook's configuration: the entity fetch, and whether the optional
`onAdditionalAction` callback was provided.  The two callbacks themselves
are observed through the event list `navRun` returns. -/
structure NavConfig (T : Type) where
  getEntityById : Option Int → FetchResult T
  hasAdditional : Bool

/-- A callback invocation performed by one evaluation of the hook's
effect, in order. -/
inductive NavEvent (T : Type) where
  | entityLoaded (payload : T)
  | additionalAction (payload : T) (entityId : Option Int)
deriving DecidableEq, Repr

/-- JavaScript truthiness of `searchParams.get`'s result: non-null
(the parameter is present) and non-empty. -/
def truthyStr : Option String → Bool
  | none => false
  | some s => !s.toList.isEmpty

/-- One evaluation of the hook's effect for query string `query`: read
the `id` and `action` parameters; if `id` is truthy (present and
non-empty) and `action` is `view` or `detail`, call
`getEntityById(parseInt(id))`; on a response with a true success flag
and a present payload call `onEntityLoaded(payload)` and then, if
provided, `onAdditionalAction(payload, parseInt(id))`; in every other
case (including a rejected fetch, caught and only logged) perform no
callback. -/
def navRun {T : Type} (cfg : NavConfig T) (query : String) : List (NavEvent T) :=
  let entityId := getParam query "id"
  let action := getParam query "action"
  if truthyStr entityId = true
      ∧ (action = some "view" ∨ action = some "detail") then
    match entityId with
    | none => []
    | some sid =>
      match cfg.getEntityById (jsParseInt sid) with
      | FetchResult.thrown => []
      | FetchResult.resolved success data =>
        if success = true then
          match data with
          | some payload =>
            if cfg.hasAdditional = true then
              [NavEvent.entityLoaded payload,
               NavEvent.additionalAction payload (jsParseInt sid)]
            else [NavEvent.entityLoaded payload]
          | none => []
        else []
  else []

/-- Whether a fetch result makes the hook skip both callbacks: the
promise rejected, or it resolved with a false success flag or without a
payload. -/
def fetchFails {T : Type} : FetchResult T → Prop
  | .thrown => True
  | .resolved b d => b = false ∨ d = none

/-- Host configuration whose fetch succeeds with payload `0` for every
id, including the `NaN` produced by `parseInt` on a non-numeric string:
a legitimate instantiation of the injected `getEntityById`. -/
def cfgC6 : NavConfig Nat :=
  { getEntityById := fun _ => FetchResult.resolved true (some 0)
    hasAdditional := true }

/-- Host configuration whose fetch succeeds with payload `42`. -/
def cfgC7 : NavConfig Nat :=
  { getEntityById := fun _ => FetchResult.resolved true (some 42)
    hasAdditional := true }

/-- Like `cfgC7` but without the optional `onAdditionalAction`
callback. -/
def cfgC7b : NavConfig Nat :=
  { getEntityById := fun _ => FetchResult.resolved true (some 42)
    hasAdditional := false }

/-- C6 counterexample: for the query string `?id=abc&action=view` the id
is non-integer (`parseInt` yields `NaN`), yet the hook's guard only
checks that the id string is truthy, so the fetch is attempted with the
`NaN` id, and with a host fetch that reports success both callbacks
fire — contradicting the claim that a non-integer id fires no
callback. -/
theorem c6_counterexample :
    jsParseInt "abc" = none
    ∧ navRun cfgC6 "?id=abc&action=view"
        = [NavEvent.entityLoaded 0, NavEvent.additionalAction 0 none]
    ∧ navRun cfgC6 "?id=abc&action=view" ≠ [] :=
  ⟨rfl, rfl, by decide⟩

/-- C6 (amended): the hook fires neither `onEntityLoaded` nor
`onAdditionalAction`, surfacing nothing but diagnostic logging, whenever
the `id` parameter is absent or empty, or the `action` parameter is
missing or not one of `view`/`detail`, or the fetch rejects, reports
failure, or carries no payload.  A present but non-integer id with a
recognized action is not skipped by the guard: the fetch is attempted
with a `NaN` id, and the callbacks fire exactly when that fetch reports
success with a payload. -/
theorem c6_no_callback (T : Type) (cfg : NavConfig T) (q : String)
    (h : truthyStr (getParam q "id") = false
       ∨ (getParam q "action" ≠ some "view" ∧ getParam q "action" ≠ some "detail")
       ∨ ∀ sid, getParam q "id" = some sid →
           fetchFails (cfg.getEntityById (jsParseInt sid))) :
    navRun cfg q = [] := by
  by_cases hc : truthyStr (getParam q "id") = true
      ∧ (getParam q "action" = some "view" ∨ getParam q "action" = some "detail")
  · obtain ⟨ht, ha⟩ := hc
    rcases h with h | h | h
    · rw [h] at ht
      cases ht
    · rcases ha with hv | hd
      · exact absurd hv h.1
      · exact absurd hd h.2
    · cases hid : getParam q "id" with
      | none =>
          rw [hid] at ht
          cases ht
      | some sid =>
          have hf := h sid hid
          cases hfr : cfg.getEntityById (jsParseInt sid) with
          | thrown =>
              rcases ha with hv | hd
              · simp [navRun, hid, hfr, ht, hv]
              · simp [navRun, hid, hfr, ht, hd]
          | resolved b d =>
              rw [hfr] at hf
              simp only [fetchFails] at hf
              rcases hf with hb | hd2
              · subst hb
                rcases ha with hv | hd
                · simp [navRun, hid, hfr, ht, hv]
                · simp [navRun, hid, hfr, ht, hd]
              · subst hd2
                rcases ha with hv | hd
                · simp [navRun, hid, hfr, ht, hv]
                · simp [navRun, hid, hfr, ht, hd]
  · simp [navRun, hc]

theorem c6_no_callback_witness :
    navRun cfgC6 "?action=view" = [] :=
  c6_no_callback Nat cfgC6 "?action=view" (Or.inl rfl)

/-- C7: for every query string whose `id` parameter parses to an integer
`n` and whose `action` parameter is `view` or `detail`, when the injected
fetch resolves for `n` with a true success flag and a payload, one
evaluation of the hook calls `onEntityLoaded(payload)` exactly once, and
then, exactly when the optional callback is provided, calls
`onAdditionalAction(payload, n)` exactly once, in that order — and
performs nothing else. -/
theorem c7_success_callbacks {T : Type} (cfg : NavConfig T) (q sid : String)
    (n : Int) (payload : T)
    (hid : getParam q "id" = some sid)
    (hn : jsParseInt sid = some n)
    (hact : getParam q "action" = some "view" ∨ getParam q "action" = some "detail")
    (hfetch : cfg.getEntityById (some n) = FetchResult.resolved true (some payload)) :
    navRun cfg q
      = if cfg.hasAdditional = true then
          [NavEvent.entityLoaded payload, NavEvent.additionalAction payload (some n)]
        else [NavEvent.entityLoaded payload] := by
  have hne : sid.toList ≠ [] := by
    intro hl
    simp only [String.toList] at hl
    simp [jsParseInt, hl] at hn
  have htr : truthyStr (some sid) = true := by
    simp [truthyStr]
    exact hne
  rcases hact with hv | hd
  · cases hadd : cfg.hasAdditional
    · simp [navRun, hid, hv, htr, hn, hfetch, hadd]
    · simp [navRun, hid, hv, htr, hn, hfetch, hadd]
  · cases hadd : cfg.hasAdditional
    · simp [navRun, hid, hd, htr, hn, hfetch, hadd]
    · simp [navRun, hid, hd, htr, hn, hfetch, hadd]

theorem c7_success_callbacks_witness :
    navRun cfgC7 "?id=7&action=view"
        = [NavEvent.entityLoaded 42, NavEvent.additionalAction 42 (some 7)]
    ∧ navRun cfgC7b "?id=7&action=view" = [NavEvent.entityLoaded 42] :=
  ⟨c7_success_callbacks cfgC7 "?id=7&action=view" "7" 7 42 rfl rfl (Or.inl rfl) rfl,
   c7_success_callbacks cfgC7b "?id=7&action=view" "7" 7 42 rfl rfl (Or.inl rfl) rfl⟩

end EntityNav
